import Mathlib

/-!
Verification of the eventsourcingdb Rust client against its specification.

The development shallowly embeds the parts of the client the claims are
about: the SHA-256 based event-hash pipeline (`Event.verify_hash`), the
Ed25519 signature checking pipeline (`Event.verify_signature`), the NDJSON
streaming decoders of the five streaming operations, the one-shot and
streaming status handling, schema-registration input validation, and the
serde round trip of `Event`.

Machine integers are `Nat` with explicit reductions modulo `2 ^ 32` where
the Rust code computes on `u32`; fallible code returns `Option` or
`Except`.
-/

namespace ESDB

/-! ## SHA-256 (model of the `sha2` crate, FIPS 180-4)

The `sha2` crate is an external dependency of the repository; the claims
describe its behaviour ("lowercase-hex SHA-256"), so it is embedded as the
standard SHA-256 algorithm over byte lists, words being `Nat` reduced
modulo `2 ^ 32`. -/

/-- Word mask: reduce a `Nat` to a 32-bit word. -/
def wmask (x : Nat) : Nat := x % 4294967296

/-- Rotate a 32-bit word right by `n`. -/
def rotr (n x : Nat) : Nat := wmask ((x >>> n) ||| (x <<< (32 - n)))

/-- Bitwise complement of a 32-bit word. -/
def wnot (x : Nat) : Nat := Nat.xor x 4294967295

/-- SHA-256 choice function. -/
def shaCh (e f g : Nat) : Nat := Nat.xor (e &&& f) ((wnot e) &&& g)

/-- SHA-256 majority function. -/
def shaMaj (a b c : Nat) : Nat := Nat.xor (Nat.xor (a &&& b) (a &&& c)) (b &&& c)

/-- SHA-256 big sigma 0. -/
def bigSigma0 (a : Nat) : Nat := Nat.xor (Nat.xor (rotr 2 a) (rotr 13 a)) (rotr 22 a)

/-- SHA-256 big sigma 1. -/
def bigSigma1 (e : Nat) : Nat := Nat.xor (Nat.xor (rotr 6 e) (rotr 11 e)) (rotr 25 e)

/-- SHA-256 small sigma 0. -/
def smallSigma0 (x : Nat) : Nat := Nat.xor (Nat.xor (rotr 7 x) (rotr 18 x)) (x >>> 3)

/-- SHA-256 small sigma 1. -/
def smallSigma1 (x : Nat) : Nat := Nat.xor (Nat.xor (rotr 17 x) (rotr 19 x)) (x >>> 10)

/-- The 64 SHA-256 round constants. -/
def shaK : List Nat :=
  [1116352408, 1899447441, 3049323471, 3921009573, 961987163, 1508970993,
   2453635748, 2870763221, 3624381080, 310598401, 607225278, 1426881987,
   1925078388, 2162078206, 2614888103, 3248222580, 3835390401, 4022224774,
   264347078, 604807628, 770255983, 1249150122, 1555081692, 1996064986,
   2554220882, 2821834349, 2952996808, 3210313671, 3336571891, 3584528711,
   113926993, 338241895, 666307205, 773529912, 1294757372, 1396182291,
   1695183700, 1986661051, 2177026350, 2456956037, 2730485921, 2820302411,
   3259730800, 3345764771, 3516065817, 3600352804, 4094571909, 275423344,
   430227734, 506948616, 659060556, 883997877, 958139571, 1322822218,
   1537002063, 1747873779, 1955562222, 2024104815, 2227730452, 2361852424,
   2428436474, 2756734187, 3204031479, 3329325298]

/-- The SHA-256 initial hash state. -/
def shaH0 : List Nat :=
  [1779033703, 3144134277, 1013904242, 2773480762,
   1359893119, 2600822924, 528734635, 1541459225]

/-- A 64-bit length as eight big-endian bytes. -/
def be64 (n : Nat) : List Nat :=
  [(n >>> 56) % 256, (n >>> 48) % 256, (n >>> 40) % 256, (n >>> 32) % 256,
   (n >>> 24) % 256, (n >>> 16) % 256, (n >>> 8) % 256, n % 256]

/-- A 32-bit word as four big-endian bytes. -/
def be32 (n : Nat) : List Nat :=
  [(n >>> 24) % 256, (n >>> 16) % 256, (n >>> 8) % 256, n % 256]

/-- SHA-256 padding: append `0x80`, zeros, and the 64-bit bit length. -/
def padMessage (msg : List Nat) : List Nat :=
  let L := msg.length
  let zeros := (64 - ((L + 9) % 64)) % 64
  msg ++ [0x80] ++ List.replicate zeros 0 ++ be64 (8 * L)

/-- Split a byte list into 64-byte blocks (first argument is fuel). -/
def chunks64 : Nat → List Nat → List (List Nat)
  | 0, _ => []
  | _, [] => []
  | fuel + 1, l => l.take 64 :: chunks64 fuel (l.drop 64)

/-- Group bytes into big-endian 32-bit words. -/
def bytesToWords : List Nat → List Nat
  | a :: b :: c :: d :: rest => ((a <<< 24) + (b <<< 16) + (c <<< 8) + d) :: bytesToWords rest
  | _ => []

/-- Extend the 16 words of a block to the 64-word message schedule. -/
def extendSchedule (ws : List Nat) : List Nat :=
  (List.range 48).foldl
    (fun acc _ =>
      let n := acc.length
      acc ++ [wmask (smallSigma1 (acc.getD (n - 2) 0) + acc.getD (n - 7) 0 +
                     smallSigma0 (acc.getD (n - 15) 0) + acc.getD (n - 16) 0)])
    ws

/-- One SHA-256 compression of a 64-byte block into the running state. -/
def compressBlock (hs : List Nat) (block : List Nat) : List Nat :=
  let w := extendSchedule (bytesToWords block)
  let step := fun (st : List Nat) (i : Nat) =>
    match st with
    | [a, b, c, d, e, f, g, h] =>
      let t1 := wmask (h + bigSigma1 e + shaCh e f g + shaK.getD i 0 + w.getD i 0)
      let t2 := wmask (bigSigma0 a + shaMaj a b c)
      [wmask (t1 + t2), a, b, c, wmask (d + t1), e, f, g]
    | st => st
  let fin := (List.range 64).foldl step hs
  List.zipWith (fun x y => wmask (x + y)) hs fin

/-- SHA-256 digest of a byte list, as 32 bytes. -/
def sha256 (msg : List Nat) : List Nat :=
  let padded := padMessage msg
  ((chunks64 padded.length padded).foldl compressBlock shaH0).flatMap be32

/-- Lowercase hexadecimal digit for a value below 16. -/
def hexDigitChar (n : Nat) : Char :=
  if n < 10 then Char.ofNat (48 + n) else Char.ofNat (87 + n)

/-- Lowercase hexadecimal encoding of a byte list (model of `hex::encode`). -/
def hexEncode (bs : List Nat) : String :=
  String.mk (bs.flatMap (fun b => [hexDigitChar (b / 16), hexDigitChar (b % 16)]))

/-- UTF-8 encoding of one character. -/
def charUtf8 (c : Char) : List Nat :=
  let n := c.toNat
  if n < 0x80 then [n]
  else if n < 0x800 then [0xC0 ||| (n >>> 6), 0x80 ||| (n &&& 0x3F)]
  else if n < 0x10000 then
    [0xE0 ||| (n >>> 12), 0x80 ||| ((n >>> 6) &&& 0x3F), 0x80 ||| (n &&& 0x3F)]
  else
    [0xF0 ||| (n >>> 18), 0x80 ||| ((n >>> 12) &&& 0x3F), 0x80 ||| ((n >>> 6) &&& 0x3F),
     0x80 ||| (n &&& 0x3F)]

/-- UTF-8 bytes of a string (`str::as_bytes`). -/
def utf8Bytes (s : String) : List Nat := s.data.flatMap charUtf8

/-- Lowercase-hex SHA-256 of the UTF-8 bytes of a string. -/
def sha256HexOfString (s : String) : String := hexEncode (sha256 (utf8Bytes s))

/-! ## UTC timestamps (model of `chrono::DateTime<Utc>`)

The event's `time` field is a `chrono` UTC timestamp with nanosecond
precision. The embedding stores the broken-down components. `chrono`'s
`to_rfc3339_opts(SecondsFormat::Nanos, true)` always renders nine
fractional digits and a literal `Z`; `chrono`'s serde serialization
renders with automatic precision (zero, three, six or nine fractional
digits) and `Z`; deserialization parses RFC 3339 (modelled here for the
`Z`-offset form the server emits). -/

/-- A UTC timestamp, broken down, with nanosecond precision. -/
structure UtcDateTime where
  year : Nat
  month : Nat
  day : Nat
  hour : Nat
  minute : Nat
  second : Nat
  nano : Nat
deriving DecidableEq, Repr

/-- Decimal digit character for a value below 10. -/
def digitChar (n : Nat) : Char := Char.ofNat (48 + n)

/-- Two decimal digits, zero padded. -/
def twoDigits (n : Nat) : List Char := [digitChar (n / 10 % 10), digitChar (n % 10)]

/-- Three decimal digits, zero padded. -/
def threeDigits (n : Nat) : List Char :=
  [digitChar (n / 100 % 10), digitChar (n / 10 % 10), digitChar (n % 10)]

/-- Four decimal digits, zero padded. -/
def fourDigits (n : Nat) : List Char :=
  [digitChar (n / 1000 % 10), digitChar (n / 100 % 10), digitChar (n / 10 % 10), digitChar (n % 10)]

/-- Six decimal digits, zero padded. -/
def sixDigits (n : Nat) : List Char := threeDigits (n / 1000) ++ threeDigits (n % 1000)

/-- Nine decimal digits, zero padded. -/
def nineDigits (n : Nat) : List Char := threeDigits (n / 1000000) ++ sixDigits (n % 1000000)

/-- The date-and-time part shared by every RFC 3339 rendering. -/
def dateTimeChars (t : UtcDateTime) : List Char :=
  fourDigits t.year ++ '-' :: twoDigits t.month ++ '-' :: twoDigits t.day ++
    'T' :: twoDigits t.hour ++ ':' :: twoDigits t.minute ++ ':' :: twoDigits t.second

/-- RFC 3339 with nanosecond precision and `Z` offset, as produced by
`chrono`'s `to_rfc3339_opts(SecondsFormat::Nanos, true)`. -/
def toRfc3339Nanos (t : UtcDateTime) : String :=
  String.mk (dateTimeChars t ++ '.' :: nineDigits t.nano ++ ['Z'])

/-- Fractional seconds with `chrono`'s automatic precision (`%.f`). -/
def fracAuto (nano : Nat) : List Char :=
  if nano = 0 then []
  else if nano % 1000000 = 0 then '.' :: threeDigits (nano / 1000000)
  else if nano % 1000 = 0 then '.' :: sixDigits (nano / 1000)
  else '.' :: nineDigits nano

/-- RFC 3339 with automatic fractional precision and `Z` offset, as
produced by `chrono`'s serde serialization of `DateTime<Utc>`. -/
def toRfc3339Auto (t : UtcDateTime) : String :=
  String.mk (dateTimeChars t ++ fracAuto t.nano ++ ['Z'])

/-- Value of a decimal digit character. -/
def digitVal (c : Char) : Option Nat :=
  if 48 ≤ c.toNat ∧ c.toNat ≤ 57 then some (c.toNat - 48) else none

/-- Read exactly two decimal digits. -/
def read2 : List Char → Option (Nat × List Char)
  | c1 :: c2 :: rest => do pure (10 * (← digitVal c1) + (← digitVal c2), rest)
  | _ => none

/-- Read exactly four decimal digits. -/
def read4 : List Char → Option (Nat × List Char)
  | c1 :: c2 :: c3 :: c4 :: rest => do
    pure (1000 * (← digitVal c1) + 100 * (← digitVal c2) + 10 * (← digitVal c3) +
      (← digitVal c4), rest)
  | _ => none

/-- Expect one specific character. -/
def expectChar (c : Char) : List Char → Option (List Char)
  | c' :: rest => if c' = c then some rest else none
  | [] => none

/-- Greedily read decimal digits, returning value, count, and rest. -/
def readDigitsAux : List Char → Nat → Nat → Nat × Nat × List Char
  | [], acc, cnt => (acc, cnt, [])
  | c :: rest, acc, cnt =>
    match digitVal c with
    | some d => readDigitsAux rest (10 * acc + d) (cnt + 1)
    | none => (acc, cnt, c :: rest)

/-- Whether a year is a leap year (proleptic Gregorian). -/
def isLeapYear (y : Nat) : Bool := y % 4 = 0 ∧ (y % 100 ≠ 0 ∨ y % 400 = 0)

/-- Number of days in a month. -/
def daysInMonth (y m : Nat) : Nat :=
  if m = 2 then (if isLeapYear y then 29 else 28)
  else if m = 4 ∨ m = 6 ∨ m = 9 ∨ m = 11 then 30
  else 31

/-- Component bounds a calendar timestamp must satisfy; `chrono` enforces
them when parsing, and `pad`-based rendering needs `year ≤ 9999`. -/
def UtcDateTime.valid (t : UtcDateTime) : Prop :=
  t.year ≤ 9999 ∧ 1 ≤ t.month ∧ t.month ≤ 12 ∧ 1 ≤ t.day ∧ t.day ≤ daysInMonth t.year t.month ∧
    t.hour < 24 ∧ t.minute < 60 ∧ t.second < 60 ∧ t.nano < 1000000000

instance (t : UtcDateTime) : Decidable t.valid := by
  unfold UtcDateTime.valid; infer_instance

/-- Read a two-digit component followed by a given separator. -/
def readComp2 (sep : Char) (cs : List Char) : Option (Nat × List Char) :=
  match read2 cs with
  | none => none
  | some (n, rest) =>
    match expectChar sep rest with
    | none => none
    | some rest' => some (n, rest')

/-- Read the optional fractional-second part: one to nine digits after a
dot, scaled to nanoseconds; absent fraction is zero nanoseconds. -/
def readFrac : List Char → Option (Nat × List Char)
  | '.' :: rest =>
    let (v, cnt, rest') := readDigitsAux rest 0 0
    if 1 ≤ cnt ∧ cnt ≤ 9 then some (v * 10 ^ (9 - cnt), rest') else none
  | cs => some (0, cs)

/-- Read the final fraction-and-offset part after the seconds. -/
def readTail (cs : List Char) : Option Nat :=
  match readFrac cs with
  | none => none
  | some (nano, rest) =>
    match rest with
    | ['Z'] => some nano
    | _ => none

/-- Read the `HH:MM:SS` time-of-day part and the tail after it. -/
def readTimePart (cs : List Char) : Option (Nat × Nat × Nat × Nat) :=
  match readComp2 ':' cs with
  | none => none
  | some (h, cs) =>
    match readComp2 ':' cs with
    | none => none
    | some (mi, cs) =>
      match read2 cs with
      | none => none
      | some (s, cs) =>
        match readTail cs with
        | none => none
        | some nano => some (h, mi, s, nano)

/-- Parse the RFC 3339 `Z`-offset form produced by the server,
modelled from `chrono`'s RFC 3339 deserialization of `DateTime<Utc>`. -/
def parseRfc3339Chars (cs : List Char) : Option UtcDateTime :=
  match read4 cs with
  | none => none
  | some (y, cs) =>
    match expectChar '-' cs with
    | none => none
    | some cs =>
      match readComp2 '-' cs with
      | none => none
      | some (mo, cs) =>
        match readComp2 'T' cs with
        | none => none
        | some (d, cs) =>
          match readTimePart cs with
          | none => none
          | some (h, mi, s, nano) =>
            let t : UtcDateTime := ⟨y, mo, d, h, mi, s, nano⟩
            if t.valid then some t else none

/-- Parse an RFC 3339 timestamp from a string. -/
def parseRfc3339 (s : String) : Option UtcDateTime := parseRfc3339Chars s.data

/-! ## JSON values (model of `serde_json::Value`)

The repository treats event payloads as arbitrary `serde_json::Value`s.
The embedding covers the JSON fragment the claims exercise, with integer
numbers; `serde_json`'s `Value` equality compares objects as ordered maps
(`BTreeMap`), so value equality is defined through a canonical form that
sorts object members by key with later duplicates winning. -/

/-- A JSON value. Object members are kept in source order; `canon` below
gives the `BTreeMap` view used for equality. -/
inductive Json where
  | null
  | bool (b : Bool)
  | num (n : Int)
  | str (s : String)
  | arr (elems : List Json)
  | obj (members : List (String × Json))
deriving Repr

/-- Insert a member into a key-sorted member list, replacing an existing
binding of the same key (model of `BTreeMap::insert`). -/
def insertMember (k : String) (v : Json) : List (String × Json) → List (String × Json)
  | [] => [(k, v)]
  | (k', v') :: ms =>
    if k < k' then (k, v) :: (k', v') :: ms
    else if k = k' then (k, v) :: ms
    else (k', v') :: insertMember k v ms

/-- Build the key-sorted, deduplicated member list (later bindings win),
as `serde_json` building a `BTreeMap` does. -/
def memberMap (ms : List (String × Json)) : List (String × Json) :=
  ms.foldl (fun acc m => insertMember m.1 m.2 acc) []

mutual

/-- Canonical form of a JSON value: object members sorted and
deduplicated, recursively. Two values are equal as `serde_json::Value`s
exactly when their canonical forms coincide. -/
def Json.canon : Json → Json
  | .null => .null
  | .bool b => .bool b
  | .num n => .num n
  | .str s => .str s
  | .arr xs => .arr (canonList xs)
  | .obj ms => .obj (memberMap (canonMembers ms))

/-- Canonical forms of a list of JSON values. -/
def canonList : List Json → List Json
  | [] => []
  | x :: xs => x.canon :: canonList xs

/-- Canonical forms of the values of a member list. -/
def canonMembers : List (String × Json) → List (String × Json)
  | [] => []
  | (k, v) :: ms => (k, v.canon) :: canonMembers ms

end

mutual

/-- Structural boolean equality of JSON values. -/
def Json.beqStruct : Json → Json → Bool
  | .null, .null => true
  | .bool a, .bool b => a == b
  | .num a, .num b => a == b
  | .str a, .str b => a == b
  | .arr xs, .arr ys => beqListStruct xs ys
  | .obj ms, .obj ns => beqMembersStruct ms ns
  | _, _ => false

/-- Structural boolean equality of JSON value lists. -/
def beqListStruct : List Json → List Json → Bool
  | [], [] => true
  | x :: xs, y :: ys => x.beqStruct y && beqListStruct xs ys
  | _, _ => false

/-- Structural boolean equality of member lists. -/
def beqMembersStruct : List (String × Json) → List (String × Json) → Bool
  | [], [] => true
  | (k, v) :: ms, (k', v') :: ns => k == k' && v.beqStruct v' && beqMembersStruct ms ns
  | _, _ => false

end

/-- Equality of JSON values as `serde_json::Value`s: canonical forms
compared structurally. -/
def Json.valEq (a b : Json) : Bool := a.canon.beqStruct b.canon

/-! ## JSON text parsing (model of `serde_json::from_str`)

The streaming decoders and the raw-payload capture (`RawValue`) work on
JSON text. The parser below models `serde_json` on the fragment the
client exchanges (integer numbers, no floats); it is fuel-indexed on the
nesting depth, with fuel instantiated to the input length. A member's
raw text — what `serde_json::value::RawValue` captures — is recovered as
the exact span the value parser consumed. -/

/-- Whether a character is JSON whitespace. -/
def isJsonWs (c : Char) : Bool := c = ' ' ∨ c = '\n' ∨ c = '\t' ∨ c = '\r'

/-- Drop leading JSON whitespace. -/
def skipWs : List Char → List Char
  | [] => []
  | c :: rest => if isJsonWs c then skipWs rest else c :: rest

/-- Value of one hexadecimal digit character. -/
def hexVal (c : Char) : Option Nat :=
  if 48 ≤ c.toNat ∧ c.toNat ≤ 57 then some (c.toNat - 48)
  else if 97 ≤ c.toNat ∧ c.toNat ≤ 102 then some (c.toNat - 87)
  else if 65 ≤ c.toNat ∧ c.toNat ≤ 70 then some (c.toNat - 55)
  else none

/-- Decode one short escape character (after a backslash). -/
def shortEscape (c : Char) : Option Char :=
  if c = 'n' then some '\n'
  else if c = 't' then some '\t'
  else if c = 'r' then some '\r'
  else if c = '"' then some '"'
  else if c = '\\' then some '\\'
  else if c = '/' then some '/'
  else if c = 'b' then some (Char.ofNat 8)
  else if c = 'f' then some (Char.ofNat 12)
  else none

/-- Parse the body of a JSON string after the opening quote; unescaped
control characters are rejected as `serde_json` rejects them. `\uXXXX`
covers the basic plane (the inputs the claims exercise use no surrogate
pairs). -/
def parseStringBody : List Char → Option (List Char × List Char)
  | [] => none
  | '"' :: rest => some ([], rest)
  | '\\' :: 'u' :: a :: b :: c :: d :: rest =>
    match hexVal a, hexVal b, hexVal c, hexVal d with
    | some x, some y, some z, some w =>
      let n := ((x * 16 + y) * 16 + z) * 16 + w
      if 0xD800 ≤ n ∧ n ≤ 0xDFFF then none
      else
        match parseStringBody rest with
        | none => none
        | some (cs, rest') => some (Char.ofNat n :: cs, rest')
    | _, _, _, _ => none
  | '\\' :: e :: rest =>
    match shortEscape e with
    | none => none
    | some c =>
      match parseStringBody rest with
      | none => none
      | some (cs, rest') => some (c :: cs, rest')
  | c :: rest =>
    if c.toNat < 32 then none
    else
      match parseStringBody rest with
      | none => none
      | some (cs, rest') => some (c :: cs, rest')

/-- Parse an unsigned decimal integer (at least one digit). -/
def parseNatNum : List Char → Option (Nat × List Char)
  | cs =>
    match readDigitsAux cs 0 0 with
    | (v, cnt, rest) => if 1 ≤ cnt then some (v, rest) else none

/-- Parse a JSON number (integer fragment of `serde_json`'s numbers). -/
def parseIntNum : List Char → Option (Int × List Char)
  | '-' :: rest =>
    match parseNatNum rest with
    | none => none
    | some (v, rest') => some (-(v : Int), rest')
  | cs =>
    match parseNatNum cs with
    | none => none
    | some (v, rest) => some ((v : Int), rest)

mutual

/-- Parse one JSON value; the input starts at the value's first
character (no leading whitespace). Fuel bounds the nesting depth. -/
def parseVal : Nat → List Char → Option (Json × List Char)
  | 0, _ => none
  | fuel + 1, cs =>
    match cs with
    | [] => none
    | '{' :: rest =>
      match skipWs rest with
      | '}' :: rest' => some (.obj [], rest')
      | rest' =>
        match parseMembers fuel rest' with
        | none => none
        | some (ms, rest'') => some (.obj ms, rest'')
    | '[' :: rest =>
      match skipWs rest with
      | ']' :: rest' => some (.arr [], rest')
      | rest' =>
        match parseElems fuel rest' with
        | none => none
        | some (xs, rest'') => some (.arr xs, rest'')
    | '"' :: rest =>
      match parseStringBody rest with
      | none => none
      | some (cs', rest') => some (.str (String.mk cs'), rest')
    | 't' :: 'r' :: 'u' :: 'e' :: rest => some (.bool true, rest)
    | 'f' :: 'a' :: 'l' :: 's' :: 'e' :: rest => some (.bool false, rest)
    | 'n' :: 'u' :: 'l' :: 'l' :: rest => some (.null, rest)
    | cs =>
      match parseIntNum cs with
      | none => none
      | some (n, rest) => some (.num n, rest)

/-- Parse the members of an object, positioned at the first key's
opening quote; consumes the closing brace. -/
def parseMembers : Nat → List Char → Option (List (String × Json) × List Char)
  | 0, _ => none
  | fuel + 1, cs =>
    match cs with
    | '"' :: rest =>
      match parseStringBody rest with
      | none => none
      | some (k, rest') =>
        match skipWs rest' with
        | ':' :: rest'' =>
          match parseVal fuel (skipWs rest'') with
          | none => none
          | some (v, rest3) =>
            match skipWs rest3 with
            | ',' :: rest4 =>
              match parseMembers fuel (skipWs rest4) with
              | none => none
              | some (ms, rest5) => some ((String.mk k, v) :: ms, rest5)
            | '}' :: rest4 => some ([(String.mk k, v)], rest4)
            | _ => none
        | _ => none
    | _ => none

/-- Parse the elements of an array, positioned at the first element;
consumes the closing bracket. -/
def parseElems : Nat → List Char → Option (List Json × List Char)
  | 0, _ => none
  | fuel + 1, cs =>
    match parseVal fuel cs with
    | none => none
    | some (x, rest) =>
      match skipWs rest with
      | ',' :: rest' =>
        match parseElems fuel (skipWs rest') with
        | none => none
        | some (xs, rest'') => some (x :: xs, rest'')
      | ']' :: rest' => some ([x], rest')
      | _ => none

end

/-- Parse a complete JSON document: one value with only whitespace
around it (model of `serde_json::from_str` into a `Value`). -/
def parseJsonFull (s : String) : Option Json :=
  let cs := skipWs s.data
  match parseVal (cs.length + 1) cs with
  | none => none
  | some (v, rest) => if (skipWs rest).isEmpty then some v else none

/-! ### Raw member capture

`serde_json::value::RawValue` hands a struct deserializer the exact
source text of a member's value. `parseMembersRaw` returns, for each
top-level member of an object, the key and that raw span, recovered by
the length the value parser consumed. -/

/-- The exact span `parseVal` consumes from `cs`, as a string. -/
def consumedSpan (cs rest : List Char) : String :=
  String.mk (cs.take (cs.length - rest.length))

/-- Parse object members, keeping each value's raw source text. -/
def parseMembersRaw : Nat → List Char → Option (List (String × String) × List Char)
  | 0, _ => none
  | fuel + 1, cs =>
    match cs with
    | '"' :: rest =>
      match parseStringBody rest with
      | none => none
      | some (k, rest') =>
        match skipWs rest' with
        | ':' :: rest'' =>
          let vstart := skipWs rest''
          match parseVal fuel vstart with
          | none => none
          | some (_, rest3) =>
            let raw := consumedSpan vstart rest3
            match skipWs rest3 with
            | ',' :: rest4 =>
              match parseMembersRaw fuel (skipWs rest4) with
              | none => none
              | some (ms, rest5) => some ((String.mk k, raw) :: ms, rest5)
            | '}' :: rest4 => some ([(String.mk k, raw)], rest4)
            | _ => none
        | _ => none
    | _ => none

/-- Top-level members of a JSON object document, with each value's raw
source text; `none` when the document is not a single object. -/
def parseTopMembers (s : String) : Option (List (String × String)) :=
  match skipWs s.data with
  | '{' :: rest =>
    match skipWs rest with
    | '}' :: rest' => if (skipWs rest').isEmpty then some [] else none
    | rest' =>
      match parseMembersRaw (rest'.length + 1) rest' with
      | none => none
      | some (ms, rest'') => if (skipWs rest'').isEmpty then some ms else none
  | _ => none

/-- Look a key up among raw members (structs reject duplicate keys;
the first binding is the relevant one for the inputs modelled here). -/
def memberRaw (ms : List (String × String)) (k : String) : Option String :=
  match ms.find? (fun m => m.1 = k) with
  | none => none
  | some m => some m.2

/-- Read a member that must be a JSON string. -/
def memberStr (ms : List (String × String)) (k : String) : Option String :=
  match memberRaw ms k with
  | none => none
  | some raw =>
    match parseJsonFull raw with
    | some (.str s) => some s
    | _ => none

/-! ## Event model (src/event/event_types/event.rs, src/event/trace_info.rs)

`CustomValue` keeps the raw wire text of the `data` payload alongside the
parsed value; equality compares only the parsed value. `Event`'s derived
`PartialEq` is field-wise. The `EventError` variants are the ones
`event.rs` uses. -/

/-- Error type of the event integrity checks, from `EventError` as used
by `event.rs`. -/
inductive EventError where
  | hashVerificationFailed (expected actual : String)
  | missingSignature
  | malformedSignature
  | signatureVerificationFailed
deriving DecidableEq, Repr

/-- Trace information, from `TraceInfo`: either a traceparent with a
tracestate, or a traceparent alone. -/
inductive TraceInfo where
  | withState (traceparent tracestate : String)
  | traceparentOnly (traceparent : String)
deriving DecidableEq, Repr

/-- The `data` payload: the raw JSON text exactly as received on the
wire, plus the value parsed from it, from `CustomValue`. -/
structure CustomValue where
  raw : String
  parsed : Json
deriving Repr

/-- Equality of payloads, from `impl PartialEq for CustomValue`: only
the parsed values are compared. -/
def CustomValue.beq (a b : CustomValue) : Bool := Json.valEq a.parsed b.parsed

/-- An event received from the database, from `Event`. -/
structure Event where
  data : CustomValue
  datacontenttype : String
  hash : String
  id : String
  predecessorhash : String
  source : String
  specversion : String
  subject : String
  time : UtcDateTime
  traceinfo : Option TraceInfo
  ty : String
  signature : Option String
deriving Repr

/-- Equality of events, from `Event`'s derived `PartialEq`: field-wise,
with the payload compared through `CustomValue`'s equality. -/
def Event.beq (a b : Event) : Bool :=
  a.data.beq b.data && a.datacontenttype == b.datacontenttype && a.hash == b.hash &&
    a.id == b.id && a.predecessorhash == b.predecessorhash && a.source == b.source &&
    a.specversion == b.specversion && a.subject == b.subject && decide (a.time = b.time) &&
    decide (a.traceinfo = b.traceinfo) && a.ty == b.ty && decide (a.signature = b.signature)

/-- Hash verification, translated from `Event::verify_hash`: join the
metadata fields with `|`, hash them, hash the raw payload text, hash the
concatenation of the two hex digests, and compare with the stored hash. -/
def Event.verify_hash (e : Event) : Except EventError Unit :=
  let metadata :=
    e.specversion ++ "|" ++ e.id ++ "|" ++ e.predecessorhash ++ "|" ++
      toRfc3339Nanos e.time ++ "|" ++ e.source ++ "|" ++ e.subject ++ "|" ++
      e.ty ++ "|" ++ e.datacontenttype
  let metadataHashHex := hexEncode (sha256 (utf8Bytes metadata))
  let dataHashHex := hexEncode (sha256 (utf8Bytes e.data.raw))
  let finalHashInput := metadataHashHex ++ dataHashHex
  let finalHashHex := hexEncode (sha256 (utf8Bytes finalHashInput))
  if finalHashHex = e.hash then .ok ()
  else .error (.hashVerificationFailed e.hash finalHashHex)

/-- Hex-decode a string into bytes (model of `hex::decode`): an odd
length or a non-hex character fails. -/
def hexDecodeChars : List Char → Option (List Nat)
  | [] => some []
  | [_] => none
  | c1 :: c2 :: rest =>
    match hexVal c1, hexVal c2 with
    | some h, some l =>
      match hexDecodeChars rest with
      | none => none
      | some bs => some ((h * 16 + l) :: bs)
    | _, _ => none

/-- Hex-decode a string into bytes. -/
def hexDecode (s : String) : Option (List Nat) := hexDecodeChars s.data

/-- The literal signature prefix from `Event::verify_signature`. -/
def signaturePrefixV1 : String := "esdb:signature:v1:"

/-- Whether the first character list leads the second. -/
def leadsChars : List Char → List Char → Bool
  | [], _ => true
  | _ :: _, [] => false
  | c :: cs, d :: ds => c == d && leadsChars cs ds

/-- Strip a leading piece from a string (model of `str::strip_prefix`). -/
def stripLeading (p s : String) : Option String :=
  if leadsChars p.data s.data then some (String.mk (s.data.drop p.data.length)) else none

/-- Signature verification, translated from `Event::verify_signature`.
The Ed25519 primitive of the `ed25519_dalek` crate is a parameter
`verify`, taking the message bytes and the 64 signature bytes, standing
for `public_key.verify`; everything around it is the repository's own
pipeline: require a signature, verify the hash, strip the version
prefix, hex-decode to exactly 64 bytes, then check the signature against
the UTF-8 bytes of the stored hash string. -/
def Event.verify_signature (e : Event) (verify : List Nat → List Nat → Bool) :
    Except EventError Unit :=
  match e.signature with
  | none => .error .missingSignature
  | some signature =>
    match e.verify_hash with
    | .error err => .error err
    | .ok () =>
      match stripLeading signaturePrefixV1 signature with
      | none => .error .malformedSignature
      | some sigHex =>
        match hexDecode sigHex with
        | none => .error .malformedSignature
        | some bytes =>
          if bytes.length = 64 then
            if verify (utf8Bytes e.hash) bytes then .ok ()
            else .error .signatureVerificationFailed
          else .error .malformedSignature

/-- Modelled from the spec: the canonical candidate hash of §4.4 steps
1–4, stated in the spec's own terms — the metadata fields joined with a
literal `|` separator in the given order (the time rendered as RFC 3339
with nanosecond precision and a `Z` offset), SHA-256 and lowercase-hex
each of the metadata string and the exact original payload text, then
SHA-256 of the concatenation of the two digests. -/
def specCandidateHash (e : Event) : String :=
  let metadataHash := sha256HexOfString (String.intercalate "|"
    [e.specversion, e.id, e.predecessorhash, toRfc3339Nanos e.time,
     e.source, e.subject, e.ty, e.datacontenttype])
  let dataHash := sha256HexOfString e.data.raw
  sha256HexOfString (metadataHash ++ dataHash)

/-! ## Deserializing an `Event` from wire text

Models serde's derived `Deserialize` for `Event`: every field except
`signature` and the flattened `traceinfo` is required; `data` is
captured as a `RawValue` (raw text) and re-parsed into a value; `time`
is parsed as RFC 3339; the flattened `Option<TraceInfo>` is an untagged
choice of traceparent-with-tracestate, traceparent alone, or absent. -/

/-- Read the optional `signature` member: absent or `null` is `none`. -/
def readSignatureMember (ms : List (String × String)) : Option (Option String) :=
  match memberRaw ms "signature" with
  | none => some none
  | some raw =>
    match parseJsonFull raw with
    | some .null => some none
    | some (.str s) => some (some s)
    | _ => none

/-- Read the flattened optional trace info from the members. -/
def readTraceInfoMembers (ms : List (String × String)) : Option TraceInfo :=
  match memberStr ms "traceparent", memberStr ms "tracestate" with
  | some tp, some ts => some (.withState tp ts)
  | some tp, none => some (.traceparentOnly tp)
  | none, _ => none

/-- Build an `Event` from the raw members of its JSON object. -/
def eventFromMembers (ms : List (String × String)) : Option Event :=
  match memberRaw ms "data" with
  | none => none
  | some dataRaw =>
    match parseJsonFull dataRaw with
    | none => none
    | some parsed =>
      match memberStr ms "datacontenttype", memberStr ms "hash", memberStr ms "id",
          memberStr ms "predecessorhash" with
      | some dct, some h, some i, some ph =>
        match memberStr ms "source", memberStr ms "specversion", memberStr ms "subject",
            memberStr ms "type" with
        | some src, some sv, some subj, some ty =>
          match memberStr ms "time" with
          | none => none
          | some timeStr =>
            match parseRfc3339 timeStr with
            | none => none
            | some time =>
              match readSignatureMember ms with
              | none => none
              | some sig =>
                some
                  { data := ⟨dataRaw, parsed⟩, datacontenttype := dct, hash := h, id := i,
                    predecessorhash := ph, source := src, specversion := sv, subject := subj,
                    time := time, traceinfo := readTraceInfoMembers ms, ty := ty,
                    signature := sig }
        | _, _, _, _ => none
      | _, _, _, _ => none

/-- Deserialize an `Event` from its JSON text. -/
def decodeEvent (s : String) : Option Event :=
  match parseTopMembers s with
  | none => none
  | some ms => eventFromMembers ms

/-! ## Client errors and the streaming decoders

`ClientError` is from src/error.rs (the variants the decoders produce).
Each streaming operation turns the NDJSON lines of the response body
into a sequence of `Except ClientError item`; the embedding processes
the list of lines of the body. -/

/-- Client error type, from `ClientError` (the variants the embedded
operations produce; error payloads of external library types are carried
as strings). -/
inductive ClientError where
  | ioError (msg : String)
  | invalidRequestMethod
  | invalidEventType
  | apiTokenInvalid
  | pingFailed
  | serdeJsonError (msg : String)
  | dbError (msg : String)
  | dbApiError (status : Nat) (body : String)
  | jsonSchemaError
  | invalidResponseType (ty : String)
deriving DecidableEq, Repr

/-- Read the `type` tag of a line's JSON object. -/
def lineTag (ms : List (String × String)) : Option String := memberStr ms "type"

/-- Decode an in-stream error payload `{"error": message}`. -/
def errorPayloadMsg (ms : List (String × String)) : Option String :=
  match memberRaw ms "payload" with
  | none => none
  | some raw =>
    match parseTopMembers raw with
    | none => none
    | some pms => memberStr pms "error"

/-- A line of the generic NDJSON stream, from `StreamLineItem<T>`:
a server error, a heartbeat, or a payload with its type tag. -/
inductive StreamLineItem (T : Type) where
  | error (msg : String)
  | heartbeat
  | ok (ty : String) (payload : T)
deriving Repr

/-- Parse one line into a `StreamLineItem`, modelling serde's adjacently
tagged enum with the untagged fallback variant: tag `error` needs the
`{"error": message}` payload, tag `heartbeat` carries nothing, and any
other tag falls through to the payload variant, whose payload must
decode as the operation's item type. -/
def parseStreamLineItem {T : Type} (decodePayload : String → Option T) (line : String) :
    Except ClientError (StreamLineItem T) :=
  match parseTopMembers line with
  | none => .error (.serdeJsonError "invalid line")
  | some ms =>
    match lineTag ms with
    | none => .error (.serdeJsonError "missing type tag")
    | some tag =>
      if tag = "error" then
        match errorPayloadMsg ms with
        | none => .error (.serdeJsonError "invalid error payload")
        | some msg => .ok (.error msg)
      else if tag = "heartbeat" then .ok .heartbeat
      else
        match memberRaw ms "payload" with
        | none => .error (.serdeJsonError "missing payload")
        | some raw =>
          match decodePayload raw with
          | none => .error (.serdeJsonError "invalid payload")
          | some payload => .ok (.ok tag payload)

/-- Classification of one line by the default `build_stream` of the
`StreamingRequest` trait: an error line becomes a `DBError` item, a
heartbeat is dropped (`none`), a payload with the expected tag is an
item, any other tag an `InvalidResponseType` item. -/
def defaultStreamLine {T : Type} (decodePayload : String → Option T) (itemTypeName : String)
    (line : String) : Option (Except ClientError T) :=
  match parseStreamLineItem decodePayload line with
  | .error e => some (.error e)
  | .ok (.error msg) => some (.error (.dbError msg))
  | .ok .heartbeat => none
  | .ok (.ok ty payload) =>
    if ty = itemTypeName then some (.ok payload)
    else some (.error (.invalidResponseType ty))

/-- The default `build_stream`: classify every line, dropping
heartbeats. -/
def defaultBuildStream {T : Type} (decodePayload : String → Option T) (itemTypeName : String)
    (lines : List String) : List (Except ClientError T) :=
  lines.filterMap (defaultStreamLine decodePayload itemTypeName)

/-- Per-line classification of `observe_events`, which uses the default
`build_stream` with item type `Event` and tag `event`. -/
def observeEventsLine (line : String) : Option (Except ClientError Event) :=
  defaultStreamLine decodeEvent "event" line

/-- The observe-events stream over the response's lines. -/
def observeEventsProcess (lines : List String) : List (Except ClientError Event) :=
  lines.filterMap observeEventsLine

/-- Decode one line of a read-events response, translated from
`ReadEventsRequest::build_stream`'s `LineItem`: tag `error` yields the
server error, tag `event` yields the event, anything else is a
deserialization error. -/
def readEventsDecodeLine (line : String) : Except ClientError Event :=
  match parseTopMembers line with
  | none => .error (.serdeJsonError "invalid line")
  | some ms =>
    match lineTag ms with
    | none => .error (.serdeJsonError "missing type tag")
    | some tag =>
      if tag = "error" then
        match errorPayloadMsg ms with
        | none => .error (.serdeJsonError "invalid error payload")
        | some msg => .error (.dbError msg)
      else if tag = "event" then
        match memberRaw ms "payload" with
        | none => .error (.serdeJsonError "missing payload")
        | some raw =>
          match decodeEvent raw with
          | none => .error (.serdeJsonError "invalid event payload")
          | some event => .ok event
      else .error (.serdeJsonError "unknown variant")

/-- The read-events stream maps every line through its decoder. -/
def readEventsProcess (lines : List String) : List (Except ClientError Event) :=
  lines.map readEventsDecodeLine

/-- Decode one line of a run-eventql-query response, translated from
the closure in `RunEventqlQueryRequest::build_stream`: the line reads
`let item = serde_json::from_str(line.as_str())?; Ok(item)` with no
type annotation, so `item` is inferred as the item type
`serde_json::Value` — the `LineItem` enum declared above it in the file
is never used. Every syntactically valid JSON line therefore yields
`Ok` of the whole parsed line (the `\x7btype, payload\x7d` envelope
included), and only a parse failure yields an error. -/
def runQueryDecodeLine (line : String) : Except ClientError Json :=
  match parseJsonFull line with
  | none => .error (.serdeJsonError "invalid line")
  | some v => .ok v

/-- The run-query stream maps every line through its decoder. -/
def runQueryProcess (lines : List String) : List (Except ClientError Json) :=
  lines.map runQueryDecodeLine

/-- Decode one line of a list-subjects response, translated from
`ListSubjectsRequest::build_stream`: the line must deserialize into
`{payload: {subject}, type}`, and a type other than `subject` yields
`InvalidEventType`. -/
def listSubjectsDecodeLine (line : String) : Except ClientError String :=
  match parseTopMembers line with
  | none => .error (.serdeJsonError "invalid line")
  | some ms =>
    match memberRaw ms "payload" with
    | none => .error (.serdeJsonError "missing payload")
    | some raw =>
      match parseTopMembers raw with
      | none => .error (.serdeJsonError "invalid payload")
      | some pms =>
        match memberStr pms "subject" with
        | none => .error (.serdeJsonError "missing subject")
        | some subject =>
          match lineTag ms with
          | none => .error (.serdeJsonError "missing type tag")
          | some tag => if tag ≠ "subject" then .error .invalidEventType else .ok subject

/-- The list-subjects stream maps every line through its decoder. -/
def listSubjectsProcess (lines : List String) : List (Except ClientError String) :=
  lines.map listSubjectsDecodeLine

/-- Registered event-type metadata, from `EventType` in
list_event_types.rs. -/
structure EventTypeInfo where
  name : String
  isPhantom : Bool
  schema : Option Json
deriving Repr

/-- Deserialize an `EventType` payload: `eventType` and `isPhantom` are
required, `schema` optional. -/
def decodeEventType (s : String) : Option EventTypeInfo :=
  match parseTopMembers s with
  | none => none
  | some ms =>
    match memberStr ms "eventType" with
    | none => none
    | some name =>
      match memberRaw ms "isPhantom" with
      | none => none
      | some rawB =>
        match parseJsonFull rawB with
        | some (.bool b) =>
          match memberRaw ms "schema" with
          | none => some ⟨name, b, none⟩
          | some rawS =>
            match parseJsonFull rawS with
            | some .null => some ⟨name, b, none⟩
            | some v => some ⟨name, b, some v⟩
            | none => none
        | _ => none

/-- Decode one line of a list-event-types response, translated from
`ListEventTypesRequest::build_stream`'s `LineItem`: tag `error` yields
the server error, tag `eventType` yields the event-type metadata. -/
def listEventTypesDecodeLine (line : String) : Except ClientError EventTypeInfo :=
  match parseTopMembers line with
  | none => .error (.serdeJsonError "invalid line")
  | some ms =>
    match lineTag ms with
    | none => .error (.serdeJsonError "missing type tag")
    | some tag =>
      if tag = "error" then
        match errorPayloadMsg ms with
        | none => .error (.serdeJsonError "invalid error payload")
        | some msg => .error (.dbError msg)
      else if tag = "eventType" then
        match memberRaw ms "payload" with
        | none => .error (.serdeJsonError "missing payload")
        | some raw =>
          match decodeEventType raw with
          | none => .error (.serdeJsonError "invalid eventType payload")
          | some et => .ok et
      else .error (.serdeJsonError "unknown variant")

/-- The list-event-types stream maps every line through its decoder. -/
def listEventTypesProcess (lines : List String) : List (Except ClientError EventTypeInfo) :=
  lines.map listEventTypesDecodeLine

/-! ## One-shot and streaming request execution (src/client.rs)

`Client::request_oneshot` and `Client::request_streaming` first check
the HTTP status; a non-success status fails with `DBApiError` carrying
the status and the body read as text (empty when unreadable), and for
streaming this happens before the body stream is consumed. The HTTP
transport is external, so a received response is modelled as its status,
its best-effort body text, and the lines of its body. -/

/-- A received HTTP response: status code, the body read as text
(`none` when unreadable, as `response.text()` can fail), and the NDJSON
lines of the body for streaming consumption. -/
structure HttpResponse where
  status : Nat
  text : Option String
  lines : List String

/-- Success range of `reqwest::StatusCode::is_success`. -/
def statusIsSuccess (s : Nat) : Bool := 200 ≤ s && s < 300

/-- One-shot execution, translated from `Client::request_oneshot`:
on success the response body is parsed and validated (abstracted as
`handle`); otherwise the call fails with `DBApiError` of the status and
the body text, defaulted to the empty string. -/
def requestOneshot {α : Type} (handle : HttpResponse → Except ClientError α)
    (resp : HttpResponse) : Except ClientError α :=
  if statusIsSuccess resp.status then handle resp
  else .error (.dbApiError resp.status (resp.text.getD ""))

/-- Streaming execution, translated from `Client::request_streaming`:
on success the operation's stream is built over the body lines;
otherwise the call fails with `DBApiError` of the status and the body
text, without touching the body lines. -/
def requestStreaming {T : Type} (buildStream : List String → List (Except ClientError T))
    (resp : HttpResponse) : Except ClientError (List (Except ClientError T)) :=
  if statusIsSuccess resp.status then .ok (buildStream resp.lines)
  else .error (.dbApiError resp.status (resp.text.getD ""))

/-! ## Schema registration (src/client/client_request/register_event_schema.rs) -/

/-- A validated register-event-schema request, from
`RegisterEventSchemaRequest`. -/
structure RegisterEventSchemaRequest where
  eventType : String
  schema : Json
deriving Repr

/-- Input validation, translated from `RegisterEventSchemaRequest::try_new`:
an empty event type is `InvalidEventType`; a schema failing the
meta-schema validation of the external `jsonschema` crate (abstracted as
`metaValidate`) is `JsonSchemaError`. -/
def registerEventSchemaTryNew (metaValidate : Json → Bool) (eventType : String)
    (schema : Json) : Except ClientError RegisterEventSchemaRequest :=
  if eventType = "" then .error .invalidEventType
  else if metaValidate schema then .ok ⟨eventType, schema⟩
  else .error .jsonSchemaError

/-- The public operation, translated from `Client::register_event_schema`:
`try_new`'s error propagates before any request is issued; only a
validated request reaches the network (abstracted as `net`). -/
def registerEventSchema {α : Type} (metaValidate : Json → Bool)
    (net : RegisterEventSchemaRequest → Except ClientError α) (eventType : String)
    (schema : Json) : Except ClientError α :=
  match registerEventSchemaTryNew metaValidate eventType schema with
  | .error e => .error e
  | .ok req => net req

/-! ## Serde round trip of `Event`

Serialization is modelled at the field level of serde's data model: a
serialized event is the list of its wire members, each a raw JSON text
span (what `CustomValue` emits verbatim), a string, or `null`. The byte
layer around it (object syntax, string escaping) is `serde_json`'s and
round-trips by that library's contract; the repository-specific content
— which members exist, that `data` is the retained raw text, how `time`,
the flattened trace info and the optional `signature` are rendered — is
what the model captures. -/

/-- A serialized member value on the wire. -/
inductive WireField where
  | raw (s : String)
  | str (s : String)
  | null
deriving DecidableEq, Repr

/-- Serialize an `Event`, from its derived `Serialize`: all fields in
declaration order, `data` as the retained raw text, `time` through
`chrono`'s serialization, the flattened trace info contributing its
members only when present, `type` under its wire name, and an absent
signature as `null`. -/
def serializeEventFields (e : Event) : List (String × WireField) :=
  [("data", .raw e.data.raw),
   ("datacontenttype", .str e.datacontenttype),
   ("hash", .str e.hash),
   ("id", .str e.id),
   ("predecessorhash", .str e.predecessorhash),
   ("source", .str e.source),
   ("specversion", .str e.specversion),
   ("subject", .str e.subject),
   ("time", .str (toRfc3339Auto e.time))] ++
  (match e.traceinfo with
   | none => []
   | some (.withState tp ts) => [("traceparent", .str tp), ("tracestate", .str ts)]
   | some (.traceparentOnly tp) => [("traceparent", .str tp)]) ++
  [("type", .str e.ty),
   ("signature", match e.signature with | none => .null | some s => .str s)]

/-- Look a key up among wire members. -/
def wfLookup (ms : List (String × WireField)) (k : String) : Option WireField :=
  match ms.find? (fun m => m.1 = k) with
  | none => none
  | some m => some m.2

/-- Read a wire member that must be a string. -/
def wfStr (ms : List (String × WireField)) (k : String) : Option String :=
  match wfLookup ms k with
  | some (.str s) => some s
  | _ => none

/-- Read the optional `signature` member: absent or `null` is `none`. -/
def wfSignature (ms : List (String × WireField)) : Option (Option String) :=
  match wfLookup ms "signature" with
  | none => some none
  | some .null => some none
  | some (.str s) => some (some s)
  | some (.raw _) => none

/-- Read the flattened optional trace info from the wire members. -/
def wfTraceInfo (ms : List (String × WireField)) : Option TraceInfo :=
  match wfStr ms "traceparent", wfStr ms "tracestate" with
  | some tp, some ts => some (.withState tp ts)
  | some tp, none => some (.traceparentOnly tp)
  | none, _ => none

/-- Deserialize an `Event` from its wire members, from its derived
`Deserialize`: `data`'s raw text is retained and re-parsed, `time` is
parsed as RFC 3339, and the required members must all be present. -/
def deserializeEventFields (ms : List (String × WireField)) : Option Event :=
  match wfLookup ms "data" with
  | some (.raw dataRaw) =>
    match parseJsonFull dataRaw with
    | none => none
    | some parsed =>
      match wfStr ms "datacontenttype", wfStr ms "hash", wfStr ms "id",
          wfStr ms "predecessorhash" with
      | some dct, some h, some i, some ph =>
        match wfStr ms "source", wfStr ms "specversion", wfStr ms "subject",
            wfStr ms "type" with
        | some src, some sv, some subj, some ty =>
          match wfStr ms "time" with
          | none => none
          | some timeStr =>
            match parseRfc3339 timeStr with
            | none => none
            | some time =>
              match wfSignature ms with
              | none => none
              | some sig =>
                some
                  { data := ⟨dataRaw, parsed⟩, datacontenttype := dct, hash := h, id := i,
                    predecessorhash := ph, source := src, specversion := sv, subject := subj,
                    time := time, traceinfo := wfTraceInfo ms, ty := ty, signature := sig }
        | _, _, _, _ => none
      | _, _, _, _ => none
  | _ => none

/-! ## Concrete test fixtures

Concrete events and stream lines used by the witnesses and
counterexamples below. `evValid`'s stored hash is the canonical hash of
its own fields, so its hash verifies; `evSpaced` differs from `evValid`
only in the whitespace inside the raw payload text. -/

/-- A trivially true stand-in for the Ed25519 primitive. -/
def acceptAll : List Nat → List Nat → Bool := fun _ _ => true

/-- The canonical hash of `evValid`'s fields. -/
def validHashHex : String :=
  "fba5a5b52b46a586927f7f2f72226440025399cf0604cf604e96698b2f7ec213"

/-- An event whose stored hash is the canonical hash of its fields. -/
def evValid : Event where
  data := ⟨"\x7b\"value\":1\x7d", Json.obj [("value", Json.num 1)]⟩
  datacontenttype := "application/json"
  hash := validHashHex
  id := "0"
  predecessorhash := "p"
  source := "s"
  specversion := "1.0"
  subject := "/t"
  time := ⟨2025, 1, 2, 3, 4, 5, 6⟩
  traceinfo := none
  ty := "t"
  signature := none

/-- The same event with extra whitespace inside the raw payload text:
the parsed payload is unchanged, the raw bytes are not. -/
def evSpaced : Event := { evValid with data := ⟨"\x7b \"value\" : 1 \x7d", Json.obj [("value", Json.num 1)]⟩ }

/-- An event whose stored hash is wrong and whose signature lacks the
version prefix. -/
def evBadBoth : Event := { evValid with hash := "deadbeef", signature := some "sig-without-prefix" }

/-- A well-formed (prefixed, 64-byte) signature string. -/
def zeroSigText : String :=
  "esdb:signature:v1:00000000000000000000000000000000000000000000000000000000000000000000000000000000000000000000000000000000000000000000000000000000"

/-- An event with a verifying hash and a well-formed signature. -/
def evSigned : Event := { evValid with signature := some zeroSigText }

/-- An in-stream server error line. -/
def errLine : String := "\x7b\"type\":\"error\",\"payload\":\x7b\"error\":\"boom\"\x7d\x7d"

/-- A query-result row line with payload `1`. -/
def rowLine : String := "\x7b\"type\":\"row\",\"payload\":1\x7d"

/-- A heartbeat line. -/
def heartbeatLine : String := "\x7b\"type\":\"heartbeat\"\x7d"

/-- An event line of a read/observe stream. -/
def evLine1 : String :=
  "\x7b\"type\":\"event\",\"payload\":\x7b\"data\":\x7b\"value\":1\x7d,\"datacontenttype\":\"application/json\",\"hash\":\"h1\",\"id\":\"0\",\"predecessorhash\":\"p\",\"source\":\"s\",\"specversion\":\"1.0\",\"subject\":\"/t\",\"time\":\"2025-01-02T03:04:05.000000006Z\",\"type\":\"t\"\x7d\x7d"

/-- A second event line of a read/observe stream. -/
def evLine2 : String :=
  "\x7b\"type\":\"event\",\"payload\":\x7b\"data\":\x7b\"value\":2\x7d,\"datacontenttype\":\"application/json\",\"hash\":\"h2\",\"id\":\"1\",\"predecessorhash\":\"h1\",\"source\":\"s\",\"specversion\":\"1.0\",\"subject\":\"/t\",\"time\":\"2025-01-02T03:04:06.000000006Z\",\"type\":\"t\"\x7d\x7d"

/-- The event `evLine1` carries. -/
def evOfLine1 : Event where
  data := ⟨"\x7b\"value\":1\x7d", Json.obj [("value", Json.num 1)]⟩
  datacontenttype := "application/json"
  hash := "h1"
  id := "0"
  predecessorhash := "p"
  source := "s"
  specversion := "1.0"
  subject := "/t"
  time := ⟨2025, 1, 2, 3, 4, 5, 6⟩
  traceinfo := none
  ty := "t"
  signature := none

/-- The event `evLine2` carries. -/
def evOfLine2 : Event where
  data := ⟨"\x7b\"value\":2\x7d", Json.obj [("value", Json.num 2)]⟩
  datacontenttype := "application/json"
  hash := "h2"
  id := "1"
  predecessorhash := "h1"
  source := "s"
  specversion := "1.0"
  subject := "/t"
  time := ⟨2025, 1, 2, 3, 4, 6, 6⟩
  traceinfo := none
  ty := "t"
  signature := none

/-- The canonical hash of `evSpaced`'s fields: the payload's raw bytes
differ from `evValid`'s, so the digest does. -/
def spacedHashHex : String :=
  "0ca79f6a0bcf596ae94d6766e8c61029158f8b1df24446dc9e498ca3a8e74a95"

/-- The hex remainder of `zeroSigText` after the prefix. -/
def zerosHex128 : String :=
  "00000000000000000000000000000000000000000000000000000000000000000000000000000000000000000000000000000000000000000000000000000000"

/-! ## Theorems -/

set_option maxRecDepth 100000

/-- C1: for every received `Event`, `verify_hash` computes exactly the
spec's canonical candidate hash — the `|`-joined metadata string (with
the time as RFC 3339 at nanosecond precision and `Z` offset) hashed with
lowercase-hex SHA-256, the exact original raw payload text hashed
likewise, and the concatenated digests hashed again — and returns `Ok`
exactly when that candidate equals the stored hash under exact string
comparison, otherwise failing with `HashVerificationFailed` carrying the
expected (stored) and actual (computed) values. -/
theorem claim1_verify_hash_matches_spec (e : Event) :
    e.verify_hash =
      (if specCandidateHash e = e.hash then .ok ()
       else .error (.hashVerificationFailed e.hash (specCandidateHash e))) := rfl

/-- C2 counterexample: a read-events response whose first line is a
server error and whose second line is an event yields the error and
then still yields the event — an item after the error line, which the
claim rules out; and a run-query response does not even yield `Err` for
an error line — it yields `Ok` of the parsed envelope, since its
closure parses every line as a plain JSON value. -/
theorem claim2_counterexample :
    readEventsProcess [errLine, evLine1] = [.error (.dbError "boom"), .ok evOfLine1] ∧
    runQueryProcess [errLine, rowLine] =
      [.ok (.obj [("type", .str "error"), ("payload", .obj [("error", .str "boom")])]),
       .ok (.obj [("type", .str "row"), ("payload", .num 1)])] := ⟨rfl, rfl⟩

/-- C2 amended: for read-events, list-subjects, list-event-types and
observe-events, a decoded in-stream error line yields `Err` at its own
position, but the stream is not terminated: every operation keeps
decoding and yielding the lines after it (the decoders are applied
line-wise, with heartbeat dropping for `observe_events`). Run-query,
whose closure parses each line as a plain JSON value, never yields
`Err` for a well-formed error line — it yields the parsed envelope as
an item, and the stream likewise continues line-wise. -/
theorem claim2_amended_error_line_not_terminal
    (pre post : List String) (line : String) (err : ClientError) :
    (readEventsDecodeLine line = .error err →
      readEventsProcess (pre ++ line :: post) =
        readEventsProcess pre ++ .error err :: readEventsProcess post) ∧
    (runQueryProcess (pre ++ line :: post) =
      runQueryProcess pre ++ runQueryDecodeLine line :: runQueryProcess post) ∧
    (listSubjectsDecodeLine line = .error err →
      listSubjectsProcess (pre ++ line :: post) =
        listSubjectsProcess pre ++ .error err :: listSubjectsProcess post) ∧
    (listEventTypesDecodeLine line = .error err →
      listEventTypesProcess (pre ++ line :: post) =
        listEventTypesProcess pre ++ .error err :: listEventTypesProcess post) ∧
    (observeEventsLine line = some (.error err) →
      observeEventsProcess (pre ++ line :: post) =
        observeEventsProcess pre ++ .error err :: observeEventsProcess post) := by
  refine ⟨fun h => ?_, ?_, fun h => ?_, fun h => ?_, fun h => ?_⟩ <;>
    simp [readEventsProcess, runQueryProcess, listSubjectsProcess, listEventTypesProcess,
      observeEventsProcess, *]

/-- C2 amended, witness: concrete instances — the read-events stream
continues past a decoded error line, and the list-subjects stream
continues past an error line (which its decoder rejects as a
deserialization error, the `subject` member being absent). -/
theorem claim2_amended_witness :
    readEventsProcess ([] ++ errLine :: [evLine1]) =
      readEventsProcess [] ++ .error (.dbError "boom") :: readEventsProcess [evLine1] ∧
    listSubjectsProcess ([] ++ errLine :: [rowLine]) =
      listSubjectsProcess [] ++ .error (.serdeJsonError "missing subject") ::
        listSubjectsProcess [rowLine] :=
  ⟨(claim2_amended_error_line_not_terminal [] [evLine1] errLine
      (.dbError "boom")).1 rfl,
   (claim2_amended_error_line_not_terminal [] [rowLine] errLine
      (.serdeJsonError "missing subject")).2.2.1 rfl⟩

/-- C4 (code-bug evidence): the run-query closure parses each line as a
plain JSON value — the `LineItem` enum and its `From` conversion
declared right above it are never used — so a line tagged `row` yields
`Ok` of the whole envelope rather than the payload alone, and a line
tagged `error` yields `Ok` of the error envelope rather than
`Err(DBError(message))`. -/
theorem claim4_code_yields_envelopes :
    runQueryDecodeLine rowLine =
      .ok (.obj [("type", .str "row"), ("payload", .num 1)]) ∧
    runQueryDecodeLine errLine =
      .ok (.obj [("type", .str "error"), ("payload", .obj [("error", .str "boom")])]) :=
  ⟨rfl, rfl⟩

/-- C6: for one-shot and streaming execution alike, a non-success HTTP
status fails the call with a server error carrying the status code and
the body text (the empty string when the body is unreadable), and for
streaming this is decided without consuming the body lines — the result
is the same whatever the lines are. -/
theorem claim6_non_success_status_fails (α T : Type)
    (handle : HttpResponse → Except ClientError α)
    (bs : List String → List (Except ClientError T)) (status : Nat) (txt : Option String)
    (ls ls' : List String) (h : statusIsSuccess status = false) :
    requestOneshot handle ⟨status, txt, ls⟩ = .error (.dbApiError status (txt.getD "")) ∧
    requestStreaming bs ⟨status, txt, ls⟩ = .error (.dbApiError status (txt.getD "")) ∧
    requestStreaming bs ⟨status, txt, ls⟩ = requestStreaming bs ⟨status, txt, ls'⟩ := by
  refine ⟨?_, ?_, ?_⟩ <;> simp [requestOneshot, requestStreaming, h]

/-- C6 witness: a 404 response with an unreadable body fails both
execution modes with the status and an empty body string. -/
theorem claim6_witness :
    requestOneshot (fun _ => .ok 0) ⟨404, none, ["x"]⟩ =
      .error (.dbApiError 404 "") ∧
    requestStreaming (fun _ => ([] : List (Except ClientError Nat))) ⟨404, none, ["x"]⟩ =
      .error (.dbApiError 404 "") :=
  ⟨(claim6_non_success_status_fails Nat Nat (fun _ => .ok 0) (fun _ => [])
      404 none ["x"] [] rfl).1,
   (claim6_non_success_status_fails Nat Nat (fun _ => .ok 0) (fun _ => [])
      404 none ["x"] [] rfl).2.1⟩

/-- C7: `register_event_schema` rejects an empty event type with
`InvalidEventType` and a schema failing meta-schema validation with
`JsonSchemaError`, in both cases independently of the network (the
result is an input-validation error for every `net`); only inputs
passing both checks reach the network. -/
theorem claim7_register_schema_validation (α : Type) (mv : Json → Bool)
    (net : RegisterEventSchemaRequest → Except ClientError α) (ty : String) (schema : Json) :
    (ty = "" → registerEventSchema mv net ty schema = .error .invalidEventType) ∧
    (ty ≠ "" → mv schema = false → registerEventSchema mv net ty schema =
      .error .jsonSchemaError) ∧
    (ty ≠ "" → mv schema = true → registerEventSchema mv net ty schema = net ⟨ty, schema⟩) := by
  refine ⟨fun h => ?_, fun h hm => ?_, fun h hm => ?_⟩
  · simp [registerEventSchema, registerEventSchemaTryNew, h]
  · simp [registerEventSchema, registerEventSchemaTryNew, h, hm]
  · simp [registerEventSchema, registerEventSchemaTryNew, h, hm]

/-- C7 witness: an empty type and a meta-invalid schema each fail
locally with the corresponding validation error. -/
theorem claim7_witness :
    registerEventSchema (fun _ => false) (fun _ => .ok 0) "" .null =
      .error .invalidEventType ∧
    registerEventSchema (fun _ => false) (fun _ => .ok 0) "t" .null =
      .error .jsonSchemaError :=
  ⟨(claim7_register_schema_validation Nat (fun _ => false) (fun _ => .ok 0) "" .null).1 rfl,
   (claim7_register_schema_validation Nat (fun _ => false) (fun _ => .ok 0) "t" .null).2.1
      (by decide) rfl⟩

/-- C10: an event without a signature fails signature verification with
the missing-signature error at once, for every event (in particular
whatever its hash fields are, so no hash verification is attempted) and
every verifier. -/
theorem claim10_missing_signature (e : Event) (f : List Nat → List Nat → Bool)
    (h : e.signature = none) : e.verify_signature f = .error .missingSignature := by
  unfold Event.verify_signature
  rw [h]

/-- C10 witness: a concrete unsigned event is rejected with the
missing-signature error. -/
theorem claim10_witness :
    Event.verify_signature evValid acceptAll = .error .missingSignature :=
  claim10_missing_signature evValid acceptAll rfl

/-- C3 counterexample: in a read-events response a heartbeat line
between two event lines does not vanish — the stream yields three
items, the middle one a deserialization error, because
`ReadEventsRequest::build_stream`'s own `LineItem` knows only the
`error` and `event` tags. -/
theorem claim3_counterexample :
    readEventsProcess [evLine1, heartbeatLine, evLine2] =
      [.ok evOfLine1, .error (.serdeJsonError "unknown variant"), .ok evOfLine2] := rfl

/-- C3 amended: only `observe_events`, which uses the trait's default
`build_stream`, drops heartbeat lines — there a heartbeat between two
event lines yields exactly the two events in order. The overridden
streams of `read_events` and `list_event_types` yield a
deserialization-error item for a heartbeat line (their `LineItem` enums
know no heartbeat tag), `list_subjects` does too (its line struct needs
a `payload` member), and `run_query`, parsing each line as a plain JSON
value, yields the heartbeat envelope as an `Ok` item. -/
theorem claim3_amended_heartbeat_only_observe (l1 hb l2 : String) (ev1 ev2 : Event) :
    (observeEventsLine l1 = some (.ok ev1) →
      parseStreamLineItem decodeEvent hb = .ok .heartbeat →
      observeEventsLine l2 = some (.ok ev2) →
      observeEventsProcess [l1, hb, l2] = [.ok ev1, .ok ev2]) ∧
    (readEventsDecodeLine l1 = .ok ev1 → readEventsDecodeLine l2 = .ok ev2 →
      readEventsProcess [l1, heartbeatLine, l2] =
        [.ok ev1, .error (.serdeJsonError "unknown variant"), .ok ev2]) ∧
    runQueryDecodeLine heartbeatLine = .ok (.obj [("type", .str "heartbeat")]) ∧
    listEventTypesDecodeLine heartbeatLine = .error (.serdeJsonError "unknown variant") ∧
    listSubjectsDecodeLine heartbeatLine = .error (.serdeJsonError "missing payload") := by
  refine ⟨fun h1 hb2 h2 => ?_, fun h1 h2 => ?_, rfl, rfl, rfl⟩
  · have hhb : observeEventsLine hb = none := by
      simp [observeEventsLine, defaultStreamLine, hb2]
    simp [observeEventsProcess, h1, h2, hhb]
  · have hhb : readEventsDecodeLine heartbeatLine = .error (.serdeJsonError "unknown variant") :=
      rfl
    simp [readEventsProcess, h1, h2, hhb]

/-- C3 amended, witness: an observe-events response with a heartbeat
between two concrete event lines yields exactly the two events. -/
theorem claim3_amended_witness :
    observeEventsProcess [evLine1, heartbeatLine, evLine2] =
      [.ok evOfLine1, .ok evOfLine2] :=
  (claim3_amended_heartbeat_only_observe evLine1 heartbeatLine evLine2
      evOfLine1 evOfLine2).1 rfl rfl rfl

/-- C9: two events that agree in every field except the formatting of
the raw payload text compare equal under the derived equality (the
payload is compared by parsed value), yet `verify_hash`, which hashes
the raw bytes, distinguishes them: one verifies, the other fails. -/
theorem claim9_parsed_equality_raw_hash :
    Event.beq evValid evSpaced = true ∧
    Event.verify_hash evValid = .ok () ∧
    Event.verify_hash evSpaced = .error (.hashVerificationFailed validHashHex spacedHashHex) :=
  ⟨rfl, rfl, rfl⟩

/-- C5 counterexample: on an event whose signature lacks the
`esdb:signature:v1:` prefix and whose hash is wrong, `verify_signature`
reports the hash failure, not `MalformedSignature` — the hash is checked
before the prefix, contrary to the claim's ordering. -/
theorem claim5_counterexample :
    evBadBoth.signature = some "sig-without-prefix" ∧
    stripLeading signaturePrefixV1 "sig-without-prefix" = none ∧
    Event.verify_signature evBadBoth acceptAll =
      .error (.hashVerificationFailed "deadbeef" validHashHex) ∧
    (Except.error (EventError.hashVerificationFailed "deadbeef" validHashHex) ≠
      (.error .malformedSignature : Except EventError Unit)) :=
  ⟨rfl, rfl, rfl, by simp⟩

/-- C5 amended: `verify_signature` first requires a signature to be
present, then the event's hash must verify (a hash failure is reported
first, with that hash error), only then is the `esdb:signature:v1:`
prefix required (else `MalformedSignature`), then the remainder must
hex-decode to exactly 64 bytes (decode failure or wrong length give
`MalformedSignature`), and finally the Ed25519 primitive decides the
result over the UTF-8 bytes of the stored hash string. -/
theorem claim5_amended_hash_checked_first (e : Event) (f : List Nat → List Nat → Bool)
    (s : String) (hs : e.signature = some s) :
    (∀ err, e.verify_hash = .error err → e.verify_signature f = .error err) ∧
    (e.verify_hash = .ok () → stripLeading signaturePrefixV1 s = none →
      e.verify_signature f = .error .malformedSignature) ∧
    (∀ rest, e.verify_hash = .ok () → stripLeading signaturePrefixV1 s = some rest →
      hexDecode rest = none → e.verify_signature f = .error .malformedSignature) ∧
    (∀ rest bytes, e.verify_hash = .ok () → stripLeading signaturePrefixV1 s = some rest →
      hexDecode rest = some bytes → bytes.length ≠ 64 →
      e.verify_signature f = .error .malformedSignature) ∧
    (∀ rest bytes, e.verify_hash = .ok () → stripLeading signaturePrefixV1 s = some rest →
      hexDecode rest = some bytes → bytes.length = 64 →
      e.verify_signature f =
        (if f (utf8Bytes e.hash) bytes then .ok () else .error .signatureVerificationFailed)) := by
  refine ⟨fun err h1 => ?_, fun h1 h2 => ?_, fun rest h1 h2 h3 => ?_,
    fun rest bytes h1 h2 h3 h4 => ?_, fun rest bytes h1 h2 h3 h4 => ?_⟩
  · simp [Event.verify_signature, hs, h1]
  · simp [Event.verify_signature, hs, h1, h2]
  · simp [Event.verify_signature, hs, h1, h2, h3]
  · simp [Event.verify_signature, hs, h1, h2, h3, h4]
  · simp [Event.verify_signature, hs, h1, h2, h3, h4]

/-- C5 amended, witness: on an event whose hash verifies and whose
signature is well formed, the pipeline reaches the Ed25519 primitive,
which (accepting here) makes verification succeed. -/
theorem claim5_amended_witness :
    Event.verify_signature evSigned acceptAll = .ok () := by
  have h := (claim5_amended_hash_checked_first evSigned acceptAll zeroSigText rfl).2.2.2.2
    zerosHex128 (List.replicate 64 0) rfl rfl rfl rfl
  simpa [acceptAll] using h

/-! ### Round trip of the time rendering

Auxiliary lemmas: the RFC 3339 parser inverts the automatic-precision
rendering, which makes the serde round trip of `Event` exact on the
`time` field. -/

/-- A digit character parses back to its digit. -/
theorem digitVal_digitChar (d : Nat) (h : d < 10) : digitVal (digitChar d) = some d := by
  interval_cases d <;> decide

/-- Two zero-padded digits parse back to their value. -/
theorem read2_twoDigits (n : Nat) (rest : List Char) (h : n < 100) :
    read2 (twoDigits n ++ rest) = some (n, rest) := by
  have h1 : n / 10 % 10 < 10 := Nat.mod_lt _ (by norm_num)
  have h2 : n % 10 < 10 := Nat.mod_lt _ (by norm_num)
  simp [twoDigits, read2, digitVal_digitChar _ h1, digitVal_digitChar _ h2]
  omega

/-- Four zero-padded digits parse back to their value. -/
theorem read4_fourDigits (n : Nat) (rest : List Char) (h : n < 10000) :
    read4 (fourDigits n ++ rest) = some (n, rest) := by
  have h1 : n / 1000 % 10 < 10 := Nat.mod_lt _ (by norm_num)
  have h2 : n / 100 % 10 < 10 := Nat.mod_lt _ (by norm_num)
  have h3 : n / 10 % 10 < 10 := Nat.mod_lt _ (by norm_num)
  have h4 : n % 10 < 10 := Nat.mod_lt _ (by norm_num)
  simp [fourDigits, read4, digitVal_digitChar _ h1, digitVal_digitChar _ h2,
    digitVal_digitChar _ h3, digitVal_digitChar _ h4]
  omega

/-- A two-digit component followed by its separator reads back. -/
theorem readComp2_build (sep : Char) (n : Nat) (rest : List Char) (h : n < 100) :
    readComp2 sep (twoDigits n ++ sep :: rest) = some (n, rest) := by
  simp [readComp2, read2_twoDigits n (sep :: rest) h, expectChar]

/-- Greedy digit reading consumes a three-digit group whole. -/
theorem readDigitsAux_threeDigits (m : Nat) (rest : List Char) (acc cnt : Nat) (h : m < 1000) :
    readDigitsAux (threeDigits m ++ rest) acc cnt =
      readDigitsAux rest (acc * 1000 + m) (cnt + 3) := by
  have h1 : m / 100 % 10 < 10 := Nat.mod_lt _ (by norm_num)
  have h2 : m / 10 % 10 < 10 := Nat.mod_lt _ (by norm_num)
  have h3 : m % 10 < 10 := Nat.mod_lt _ (by norm_num)
  simp only [threeDigits, List.cons_append, List.nil_append, readDigitsAux,
    digitVal_digitChar _ h1, digitVal_digitChar _ h2, digitVal_digitChar _ h3]
  congr 1
  omega

/-- Greedy digit reading stops at the `Z`. -/
theorem readDigitsAux_stopZ (acc cnt : Nat) :
    readDigitsAux ['Z'] acc cnt = (acc, cnt, ['Z']) := by
  simp [readDigitsAux, digitVal]

/-- The fraction-and-offset tail parses back to the nanosecond value for
each of the automatic precisions. -/
theorem readTail_fracAuto (nano : Nat) (h : nano < 1000000000) :
    readTail (fracAuto nano ++ ['Z']) = some nano := by
  by_cases h0 : nano = 0
  · simp [h0, fracAuto, readTail, readFrac]
  · by_cases h3 : nano % 1000000 = 0
    · have hq : nano / 1000000 < 1000 := by omega
      simp only [fracAuto, h0, if_false, h3, if_true, List.cons_append, readTail, readFrac,
        readDigitsAux_threeDigits _ _ _ _ hq, readDigitsAux_stopZ]
      norm_num
      exact Nat.div_mul_cancel (Nat.dvd_of_mod_eq_zero h3)
    · by_cases h6 : nano % 1000 = 0
      · have hq1 : nano / 1000 / 1000 < 1000 := by omega
        have hq2 : nano / 1000 % 1000 < 1000 := Nat.mod_lt _ (by norm_num)
        simp only [fracAuto, h0, if_false, h3, h6, if_true, sixDigits, List.cons_append,
          List.append_assoc, readTail, readFrac,
          readDigitsAux_threeDigits _ _ _ _ hq1, readDigitsAux_threeDigits _ _ _ _ hq2,
          readDigitsAux_stopZ]
        norm_num
        have hq : nano / 1000 / 1000 * 1000 + nano / 1000 % 1000 = nano / 1000 := by omega
        rw [hq]
        exact Nat.div_mul_cancel (Nat.dvd_of_mod_eq_zero h6)
      · have hq1 : nano / 1000000 < 1000 := by omega
        have hq2 : nano % 1000000 / 1000 < 1000 := by omega
        have hq3 : nano % 1000000 % 1000 < 1000 := Nat.mod_lt _ (by norm_num)
        simp only [fracAuto, h0, if_false, h3, h6, if_true, nineDigits, sixDigits,
          List.cons_append, List.append_assoc, readTail, readFrac,
          readDigitsAux_threeDigits _ _ _ _ hq1, readDigitsAux_threeDigits _ _ _ _ hq2,
          readDigitsAux_threeDigits _ _ _ _ hq3, readDigitsAux_stopZ]
        norm_num
        omega

/-- No month has more than 31 days. -/
theorem daysInMonth_le (y m : Nat) : daysInMonth y m ≤ 31 := by
  unfold daysInMonth
  split_ifs <;> omega

/-- The RFC 3339 parser inverts the automatic-precision rendering on
every valid timestamp. -/
theorem parseRfc3339_toAuto (t : UtcDateTime) (h : t.valid) :
    parseRfc3339 (toRfc3339Auto t) = some t := by
  obtain ⟨y, mo, d, hh, mi, s, na⟩ := t
  simp only [UtcDateTime.valid] at h
  obtain ⟨hy, hmo1, hmo2, hd1, hd2, hhh, hmi, hs, hna⟩ := h
  have hd31 : d ≤ 31 := le_trans hd2 (daysInMonth_le y mo)
  show parseRfc3339Chars (dateTimeChars ⟨y, mo, d, hh, mi, s, na⟩ ++ fracAuto na ++ ['Z']) = _
  unfold dateTimeChars parseRfc3339Chars
  simp [List.append_assoc, List.cons_append,
    read4_fourDigits y _ (by omega), expectChar,
    readComp2_build '-' mo _ (by omega), readComp2_build 'T' d _ (by omega),
    readTimePart, readComp2_build ':' hh _ (by omega), readComp2_build ':' mi _ (by omega),
    read2_twoDigits s _ (by omega), readTail_fracAuto na hna]
  exact ⟨hy, hmo1, hmo2, hd1, hd2, hhh, hmi, hs, hna⟩

/-- C8: serializing an `Event` and deserializing the result gives back
the same event in every field — in particular the raw payload text used
for hashing survives the round trip exactly, so `verify_hash` gives the
same result on the round-tripped event. The hypotheses are the
invariants every received event has: its components are a valid
calendar timestamp, and its retained raw text parses to its parsed
payload (deserialization is the only constructor and establishes
both). -/
theorem claim8_event_round_trip (e : Event) (ht : e.time.valid)
    (hp : parseJsonFull e.data.raw = some e.data.parsed) :
    deserializeEventFields (serializeEventFields e) = some e ∧
    (deserializeEventFields (serializeEventFields e)).map Event.verify_hash =
      some e.verify_hash := by
  obtain ⟨⟨raw, parsed⟩, dct, hsh, i, ph, src, sv, subj, t, ti, ty, sig⟩ := e
  simp only at ht hp
  have hrt := parseRfc3339_toAuto t ht
  have h1 : deserializeEventFields (serializeEventFields
      ⟨⟨raw, parsed⟩, dct, hsh, i, ph, src, sv, subj, t, ti, ty, sig⟩) =
      some ⟨⟨raw, parsed⟩, dct, hsh, i, ph, src, sv, subj, t, ti, ty, sig⟩ := by
    rcases ti with _ | tinfo
    · rcases sig with _ | sg <;>
        simp [serializeEventFields, deserializeEventFields, wfLookup, wfStr, wfSignature,
          wfTraceInfo, List.find?, hp, hrt]
    · rcases tinfo with ⟨tp, ts⟩ | tp <;> rcases sig with _ | sg <;>
        simp [serializeEventFields, deserializeEventFields, wfLookup, wfStr, wfSignature,
          wfTraceInfo, List.find?, hp, hrt]
  exact ⟨h1, by rw [h1]; rfl⟩

/-- C8 witness: a concrete event round-trips to itself. -/
theorem claim8_witness :
    deserializeEventFields (serializeEventFields evValid) = some evValid :=
  (claim8_event_round_trip evValid (by decide) rfl).1

end ESDB
